/-
Verification development for the bot_shopee test-orchestration engine.

Shallow embedding of `src/tests/orchestrator.py` and `src/tests/monitoring.py`:
  * `TestCategory`, `TestPriority`, `TestMetadata`, `ExecutionConfig`,
    `TestResult`, `ExecutionSummary` mirror the Python dataclasses/enums.
  * Python floats are modelled as rationals, Python ints as naturals
    (the orchestrator only ever initialises counters to 0 and increments).
  * The real execution of a unittest case is outside the repository; its
    observable effect on `_execute_single_test` is modelled by `ExecOutcome`:
    either the `try` body raises an exception (`raises msg`, covering import
    errors, missing attributes and arbitrary faults caught by
    `except Exception`) or the unittest runner completes with the given
    `failures` and `errors` lists (each entry the rendered traceback string).
  * Wall-clock timing, printing and datetime fields are not modelled
    (durations of produced results are set to 0; they play no role in any
    claim considered here).
  * `threading.Event`: `_stop_event` is created in `TestOrchestrator.__init__`
    and *never set anywhere in the repository*, so every
    `self._stop_event.is_set()` check is modelled as the constant `false`,
    i.e. the checks are dropped.
  * The nondeterministic completion order of `as_completed` in
    `_run_parallel` is modelled by an explicit `reorder` parameter applied to
    the list of submitted parallel-safe tests; theorems that need it assume
    `reorder l` is a permutation of `l`.
-/
import Mathlib

/-- Enum `TestCategory` from orchestrator.py. -/
inductive TestCategory where
  | unit
  | integration
  | api
  | mock
  | property
  | flaky
deriving DecidableEq, Fintype

/-- Enum `TestPriority` from orchestrator.py; `prioVal` is the `.value`. -/
inductive TestPriority where
  | critical
  | high
  | medium
  | low
deriving DecidableEq

/-- Numeric `.value` of `TestPriority` (CRITICAL=0, HIGH=1, MEDIUM=2, LOW=3). -/
def prioVal : TestPriority → Nat
  | .critical => 0
  | .high => 1
  | .medium => 2
  | .low => 3

/-- Dataclass `TestMetadata` from orchestrator.py (datetime-free fields). -/
structure TestMetadata where
  name : String
  module : String
  file_path : String := ""
  line_number : Nat := 0
  category : TestCategory := .unit
  priority : TestPriority := .medium
  estimated_duration : ℚ := 1
  dependencies : List String := []
  tags : List String := []
  flaky : Bool := false
  requires_network : Bool := false
  requires_auth : Bool := false
  parallel_safe : Bool := true
deriving DecidableEq

/-- Dataclass `ExecutionConfig` from orchestrator.py.  The default for
`categories` in the source is `set(TestCategory)` (the full set). -/
structure ExecutionConfig where
  max_workers : Nat := 4
  parallel : Bool := true
  fail_fast : Bool := false
  retry_flaky : Nat := 3
  verbose : Bool := true
  coverage : Bool := false
  categories : Finset TestCategory := Finset.univ

/-- Dataclass `TestResult` from orchestrator.py (timestamp omitted). -/
structure TestResult where
  test_id : String
  status : String
  duration : ℚ
  output : String := ""
  error : String := ""
  retries : Nat := 0
deriving DecidableEq

/-- Dataclass `ExecutionSummary` from orchestrator.py (datetimes omitted). -/
structure ExecutionSummary where
  total : Nat := 0
  passed : Nat := 0
  failed : Nat := 0
  skipped : Nat := 0
  errors : Nat := 0
  duration : ℚ := 0
  results : List TestResult := []
deriving DecidableEq

/-- Property `ExecutionSummary.success_rate`:
`0.0` when `total == 0`, otherwise `(passed / total) * 100`. -/
def success_rate (s : ExecutionSummary) : ℚ :=
  if s.total = 0 then 0 else ((s.passed : ℚ) / (s.total : ℚ)) * 100

/-- Observable behaviour of the Python code under the `try` of
`TestOrchestrator._execute_single_test` for one test: either some statement
of the body raises (caught by `except Exception as e`, with `str(e) = msg`),
or `unittest.TextTestRunner.run` completes and returns a result object with
the given rendered `failures` and `errors` lists. -/
inductive ExecOutcome where
  | raises (msg : String)
  | completes (failures : List String) (errors : List String)
deriving DecidableEq

/-- `TestOrchestrator._execute_single_test`.  `result.wasSuccessful()` is
modelled as both lists empty; branch order follows the source
(`if wasSuccessful / elif result.errors / else`), and the `except Exception`
handler yields status `"error"` with `error=str(e)`.  Durations are 0. -/
def execute_single_test (t : TestMetadata) (b : ExecOutcome) : TestResult :=
  match b with
  | .raises msg =>
      { test_id := t.name, status := "error", duration := 0, error := msg }
  | .completes failures errors =>
      if failures = [] ∧ errors = [] then
        { test_id := t.name, status := "passed", duration := 0 }
      else if errors ≠ [] then
        { test_id := t.name, status := "error", duration := 0,
          error := errors.headD "" }
      else
        { test_id := t.name, status := "failed", duration := 0,
          error := failures.headD "" }

/-- `TestOrchestrator._update_summary`. -/
def update_summary (r : TestResult) (s : ExecutionSummary) : ExecutionSummary :=
  if r.status = "passed" then { s with passed := s.passed + 1 }
  else if r.status = "failed" then { s with failed := s.failed + 1 }
  else if r.status = "error" then { s with errors := s.errors + 1 }
  else if r.status = "skipped" then { s with skipped := s.skipped + 1 }
  else s

/-- Sort key order used by `TestOrchestrator.run`:
`key=lambda t: (t.priority.value, t.estimated_duration)` compared
lexicographically (Python `sorted` is stable, as is `List.insertionSort`). -/
def keyLe (a b : TestMetadata) : Prop :=
  prioVal a.priority < prioVal b.priority ∨
    (prioVal a.priority = prioVal b.priority ∧
      a.estimated_duration ≤ b.estimated_duration)

instance : DecidableRel keyLe := fun a b => by
  unfold keyLe; infer_instance

instance : IsTotal TestMetadata keyLe := by
  constructor
  intro a b
  rcases Nat.lt_trichotomy (prioVal a.priority) (prioVal b.priority) with h | h | h
  · exact Or.inl (Or.inl h)
  · rcases le_total a.estimated_duration b.estimated_duration with hd | hd
    · exact Or.inl (Or.inr ⟨h, hd⟩)
    · exact Or.inr (Or.inr ⟨h.symm, hd⟩)
  · exact Or.inr (Or.inl h)

instance : IsTrans TestMetadata keyLe := by
  constructor
  intro a b c hab hbc
  rcases hab with h1 | ⟨h1, d1⟩
  · rcases hbc with h2 | ⟨h2, _⟩
    · exact Or.inl (h1.trans h2)
    · exact Or.inl (h2 ▸ h1)
  · rcases hbc with h2 | ⟨h2, d2⟩
    · exact Or.inl (h1 ▸ h2)
    · exact Or.inr ⟨h1.trans h2, d1.trans d2⟩

/-- `TestOrchestrator._filter_tests`: filter by category only when
`config.categories` is nonempty and not the full set. -/
def filter_tests (cfg : ExecutionConfig) (tests : List TestMetadata) :
    List TestMetadata :=
  if cfg.categories ≠ ∅ ∧ cfg.categories ≠ Finset.univ then
    tests.filter (fun t => t.category ∈ cfg.categories)
  else tests

/-- Common shape of the three result-processing loops in the source
(`_run_sequential`, the `as_completed` loop of `_run_parallel`, and the
sequential tail of `_run_parallel`): execute each test in order, append its
result and update the counters, and — when `failFast` is set — stop after the
first result whose status is `"failed"` or `"error"`.  The
`_stop_event.is_set()` checks are constant `false` (the event is never set)
and are dropped.  The sequential tail performs no fail-fast check, which is
obtained by instantiating `failFast := false`. -/
def execLoop (failFast : Bool) (exec : TestMetadata → ExecOutcome) :
    List TestMetadata → ExecutionSummary → ExecutionSummary
  | [], s => s
  | t :: rest, s =>
      let r := execute_single_test t (exec t)
      let s' := update_summary r { s with results := s.results ++ [r] }
      if failFast = true ∧ (r.status = "failed" ∨ r.status = "error") then s'
      else execLoop failFast exec rest s'

/-- `TestOrchestrator._run_sequential`. -/
def run_sequential (cfg : ExecutionConfig) (exec : TestMetadata → ExecOutcome)
    (tests : List TestMetadata) (s : ExecutionSummary) : ExecutionSummary :=
  execLoop cfg.fail_fast exec tests s

/-- `TestOrchestrator._run_parallel`: all parallel-safe tests are submitted;
completed results are processed in completion order (`reorder parallel_tests`)
with the fail-fast break; afterwards the non-parallel-safe tests run
sequentially.  The tail loop in the source checks only `_stop_event` (never
set) and has no fail-fast check, so it always processes every test. -/
def run_parallel (cfg : ExecutionConfig) (exec : TestMetadata → ExecOutcome)
    (reorder : List TestMetadata → List TestMetadata)
    (tests : List TestMetadata) (s : ExecutionSummary) : ExecutionSummary :=
  let parallel_tests := tests.filter (fun t => t.parallel_safe)
  let sequential_tests := tests.filter (fun t => !t.parallel_safe)
  execLoop false exec sequential_tests
    (execLoop cfg.fail_fast exec (reorder parallel_tests) s)

/-- `TestOrchestrator.run`: filter by category, sort by
`(priority.value, estimated_duration)`, set `summary.total` to the number of
tests to run, then dispatch to the parallel or sequential path. -/
def orchestrator_run (cfg : ExecutionConfig)
    (exec : TestMetadata → ExecOutcome)
    (reorder : List TestMetadata → List TestMetadata)
    (tests : List TestMetadata) : ExecutionSummary :=
  let tests_to_run := List.insertionSort keyLe (filter_tests cfg tests)
  let s0 : ExecutionSummary := { total := tests_to_run.length }
  if cfg.parallel = true ∧ 1 < tests_to_run.length then
    run_parallel cfg exec reorder tests_to_run s0
  else
    run_sequential cfg exec tests_to_run s0

/-- Process exit code of `main()` in orchestrator.py.
With `--ci`, `CIOrchestrator.run_ci_pipeline` returns
`summary.failed == 0 and summary.errors == 0` and `main` exits 0 iff that is
true; without `--ci`, `main` computes `success = summary.failed == 0`
(ignoring `errors`) and exits 0 iff that is true. -/
def main_exit_code (ci : Bool) (s : ExecutionSummary) : Nat :=
  if ci = true then (if s.failed = 0 ∧ s.errors = 0 then 0 else 1)
  else (if s.failed = 0 then 0 else 1)

/-- Sum of the four outcome counters of a summary. -/
def countersSum (s : ExecutionSummary) : Nat :=
  s.passed + s.failed + s.errors + s.skipped

/-
Embedding of `src/tests/monitoring.py` (`TestAnalytics.get_flaky_tests`).
The SQLite table `test_results` is modelled as a list of `ResultRow`s;
ISO-8601 timestamp strings compare chronologically, modelled by rational
timestamps with `<`.  `GROUP BY test_id` groups the in-window rows by
`test_id` (one group per distinct id); SQL produces groups in an unspecified
order, modelled here by first-occurrence order of the ids.  The `HAVING`
clause keeps groups with `CAST(failures AS FLOAT)/COUNT(*) > threshold`
(exact rational division models the float division) and `ORDER BY failures
DESC` sorts the kept groups by failure count descending.
-/

/-- One row of the `test_results` table. -/
structure ResultRow where
  test_id : String
  status : String
  duration : ℚ
  timestamp : ℚ
deriving DecidableEq

/-- Dataclass `TestMetrics` from monitoring.py (`last_run` omitted:
`get_flaky_tests` fills it with `datetime.now()`). -/
structure TestMetrics where
  test_id : String
  avg_duration : ℚ
  min_duration : ℚ
  max_duration : ℚ
  success_rate : ℚ
  total_runs : Nat
  failures : Nat
  flakiness_score : ℚ
deriving DecidableEq

/-- `WHERE timestamp > ?` with the window cutoff. -/
def rowsInWindow (cutoff : ℚ) (rows : List ResultRow) : List ResultRow :=
  rows.filter (fun r => cutoff < r.timestamp)

/-- The group of rows of one `test_id` (`GROUP BY test_id`). -/
def groupRows (rows : List ResultRow) (id : String) : List ResultRow :=
  rows.filter (fun r => r.test_id = id)

/-- `COUNT(*)` of the group of `id`. -/
def totalRuns (rows : List ResultRow) (id : String) : Nat :=
  (groupRows rows id).length

/-- `SUM(CASE WHEN status != 'passed' THEN 1 ELSE 0 END)` of the group. -/
def failureCount (rows : List ResultRow) (id : String) : Nat :=
  ((groupRows rows id).filter (fun r => r.status ≠ "passed")).length

/-- `CAST(failures AS FLOAT) / COUNT(*)`, the flakiness score of `id` over
`rows` (division by zero yields 0, matching the guards in the source). -/
def flakinessScore (rows : List ResultRow) (id : String) : ℚ :=
  (failureCount rows id : ℚ) / (totalRuns rows id : ℚ)

/-- The `TestMetrics` record built by `get_flaky_tests` for one group. -/
def mkMetrics (rows : List ResultRow) (id : String) : TestMetrics :=
  let g := groupRows rows id
  let total := totalRuns rows id
  let failures := failureCount rows id
  { test_id := id
    avg_duration := (g.map (fun r => r.duration)).sum / (total : ℚ)
    min_duration := (g.map (fun r => r.duration)).foldr min 0
    max_duration := (g.map (fun r => r.duration)).foldr max 0
    success_rate := (((total : ℚ) - (failures : ℚ)) / (total : ℚ)) * 100
    total_runs := total
    failures := failures
    flakiness_score := flakinessScore rows id }

/-- `ORDER BY failures DESC` as a relation on `TestMetrics`. -/
def failuresDesc (a b : TestMetrics) : Prop := b.failures ≤ a.failures

instance : DecidableRel failuresDesc := fun a b => by
  unfold failuresDesc; infer_instance

instance : IsTotal TestMetrics failuresDesc :=
  ⟨fun a b => (Nat.le_total b.failures a.failures).imp id id⟩

instance : IsTrans TestMetrics failuresDesc :=
  ⟨fun _ _ _ hab hbc => le_trans hbc hab⟩

/-- The distinct `test_id`s appearing among the rows (`GROUP BY test_id`). -/
def groupIds (rows : List ResultRow) : List String :=
  (rows.map (fun r => r.test_id)).dedup

/-- `TestAnalytics.get_flaky_tests threshold` over the rows whose timestamp
exceeds `cutoff`: keep the groups whose flakiness score is strictly greater
than `threshold`, order them by failure count descending. -/
def get_flaky_tests (threshold : ℚ) (cutoff : ℚ) (rows : List ResultRow) :
    List TestMetrics :=
  let wrows := rowsInWindow cutoff rows
  let selected :=
    (groupIds wrows).filter (fun id => threshold < flakinessScore wrows id)
  List.insertionSort failuresDesc (selected.map (mkMetrics wrows))

/-
Embedding of `TestDiscovery` (orchestrator.py).

`_detect_category_from_name(name, content)` is the classifier used on every
discovery path (`_manual_analyze` and `_manual_analyze_fallback`).

For claim C8, the structural path `_manual_analyze` (an `ast.parse` walk) and
the regex fallback `_manual_analyze_fallback` are compared.  A Python test
source file is modelled by `PyModule`, a list of top-level class definitions
whose bodies are (possibly `async`) method definitions or `pass`;
`renderModule` produces the exact source text of such a module, so the AST
path can be evaluated on the structure while the fallback is evaluated on the
rendered text.  The two regular expressions of the fallback,
`class\s+(\w+)\s*\(.*TestCase.*\):` and `def\s+(test_\w+)\s*\(`, are
implemented character-exactly for ASCII input: `\w` is alphanumeric or
underscore, `\s` is whitespace, `.` matches anything except a newline, `.*`
is greedy (so a class match ends at the last `):` of the line that is
preceded by an occurrence of `TestCase` after the opening parenthesis), and
`re.finditer` yields non-overlapping matches scanning left to right,
resuming after each match.
-/

/-- Python `\w` for ASCII text. -/
def isWordChar (c : Char) : Bool := c.isAlphanum || c = '_'

/-- Python `\s` for ASCII text. -/
def isSpaceChar (c : Char) : Bool :=
  c = ' ' || c = '\t' || c = '\n' || c = '\r' || c = '\x0b' || c = '\x0c'

/-- Python `needle in hay` on strings (substring containment). -/
def containsSubstr (needle hay : String) : Bool :=
  (List.range (hay.toList.length + 1)).any
    (fun i => List.isPrefixOf needle.toList (hay.toList.drop i))

/-- Python `str.lower()` (character-wise lowering, exact for the ASCII
identifiers and file contents involved here). -/
def strToLower (s : String) : String := String.mk (s.toList.map Char.toLower)

/-- `TestDiscovery._detect_category_from_name`: the classifier applied to
every discovered test method.  `name` is lower-cased for the `"mock"`,
`"api"` and `"request"` checks; the `"@patch"` check is on the raw file
content.  Only `MOCK`, `API` and `UNIT` can be produced. -/
def detect_category_from_name (name content : String) : TestCategory :=
  if containsSubstr "mock" (strToLower name) || containsSubstr "@patch" content then
    .mock
  else if containsSubstr "api" (strToLower name)
      || containsSubstr "request" (strToLower name) then
    .api
  else .unit

/-- Statement of a class body: a plain method with body `pass`, an `async`
method with body `pass`, or a bare `pass` (the shapes occurring in the
modules compared in C8). -/
inductive PyStmt where
  | funcDef (name : String)
  | asyncFuncDef (name : String)
  | passStmt
deriving DecidableEq

/-- Top-level statement: a class definition with plain-name bases
(`ast.Name` bases, whose `.id` the source inspects). -/
inductive PyTop where
  | classDef (name : String) (bases : List String) (body : List PyStmt)
deriving DecidableEq

/-- A well-formed Python test module (for the inputs compared in C8). -/
abbrev PyModule := List PyTop

/-- Exact source text of one class-body statement (indentation one level for
the statement itself, two for a method body). -/
def renderStmt : PyStmt → String
  | .funcDef name => "    def " ++ name ++ "(self):\n        pass\n"
  | .asyncFuncDef name => "    async def " ++ name ++ "(self):\n        pass\n"
  | .passStmt => "    pass\n"

/-- Exact source text of one top-level statement. -/
def renderTop : PyTop → String
  | .classDef name bases body =>
      "class " ++ name ++ "(" ++ String.intercalate ", " bases ++ "):\n"
        ++ String.join (body.map renderStmt)

/-- Exact source text of a module. -/
def renderModule (m : PyModule) : String := String.join (m.map renderTop)

/-- Key insertion into `self.tests` (a Python dict): a repeated key keeps its
original position (the stored value is overwritten, which the name list does
not observe). -/
def insertKey (l : List String) (k : String) : List String :=
  if l.contains k then l else l ++ [k]

/-- `TestDiscovery._manual_analyze` on a parsed module: for every class one
of whose base names contains `"TestCase"` (the `ast.Name`/`ast.Attribute`
check of the source), record every *direct* body item that is a plain
`ast.FunctionDef` (an `async def` is an `ast.AsyncFunctionDef` and is not an
`ast.FunctionDef`) whose name starts with `"test_"`, keyed
`ClassName.method_name`.  Returns the keys of `self.tests`. -/
def astDiscoverNames (m : PyModule) : List String :=
  m.foldl
    (fun acc top =>
      match top with
      | .classDef cname bases body =>
          if bases.any (fun b => containsSubstr "TestCase" b) then
            body.foldl
              (fun acc2 st =>
                match st with
                | .funcDef mname =>
                    if List.isPrefixOf "test_".toList mname.toList then
                      insertKey acc2 (cname ++ "." ++ mname)
                    else acc2
                | _ => acc2)
              acc
          else acc)
    []

/-- Match of `def\s+(test_\w+)\s*\(` at the head of `cs`: returns the
captured method name and the number of characters consumed up to the end of
the match.  `\w`, `\s` and `(` are pairwise disjoint character classes, so
greedy matching needs no backtracking here. -/
def matchDefAt (cs : List Char) : Option (String × Nat) :=
  match cs with
  | 'd' :: 'e' :: 'f' :: rest =>
      let sp1 := rest.takeWhile isSpaceChar
      if sp1.length = 0 then none
      else
        let r2 := rest.drop sp1.length
        if List.isPrefixOf "test_".toList r2 then
          let r3 := r2.drop 5
          let w := r3.takeWhile isWordChar
          if w.length = 0 then none
          else
            let r4 := r3.drop w.length
            let sp2 := r4.takeWhile isSpaceChar
            let r5 := r4.drop sp2.length
            match r5 with
            | '(' :: _ =>
                some (String.mk ("test_".toList ++ w),
                  3 + sp1.length + 5 + w.length + sp2.length + 1)
            | _ => none
        else none
  | _ => none

/-- Match of `class\s+(\w+)\s*\(.*TestCase.*\):` at the head of `cs`:
returns the captured class name and the number of characters consumed.
After the opening parenthesis the pattern is confined to the current line
(`.` does not match a newline); with greedy `.*` the match ends at the last
`):` of the line preceded (at distance ≥ 8) by an occurrence of
`"TestCase"`. -/
def matchClassAt (cs : List Char) : Option (String × Nat) :=
  match cs with
  | 'c' :: 'l' :: 'a' :: 's' :: 's' :: rest =>
      let sp1 := rest.takeWhile isSpaceChar
      if sp1.length = 0 then none
      else
        let r2 := rest.drop sp1.length
        let w := r2.takeWhile isWordChar
        if w.length = 0 then none
        else
          let r3 := r2.drop w.length
          let sp2 := r3.takeWhile isSpaceChar
          let r4 := r3.drop sp2.length
          match r4 with
          | '(' :: r5 =>
              let line := r5.takeWhile (fun c => c ≠ '\n')
              let qs := (List.range (line.length + 1)).filter
                (fun q =>
                  List.isPrefixOf "):".toList (line.drop q)
                    && (List.range (q + 1)).any
                      (fun p =>
                        decide (p + 8 ≤ q)
                          && List.isPrefixOf "TestCase".toList (line.drop p)))
              match qs.getLast? with
              | some q =>
                  some (String.mk w,
                    5 + sp1.length + w.length + sp2.length + 1 + q + 2)
              | none => none
          | _ => none
  | _ => none

/-- `re.finditer(class_pattern, content)`: scan positions left to right,
resume after each match; yields `(class name, absolute end index)` pairs. -/
def classScan (cs : List Char) : Nat → Nat → List (String × Nat)
  | 0, _ => []
  | fuel + 1, i =>
      if i < cs.length then
        match matchClassAt (cs.drop i) with
        | some (w, len) => (w, i + len) :: classScan cs fuel (i + len)
        | none => classScan cs fuel (i + 1)
      else []

/-- `re.finditer(method_pattern, region)`: the captured method names in
order. -/
def defScan (cs : List Char) : Nat → Nat → List String
  | 0, _ => []
  | fuel + 1, i =>
      if i < cs.length then
        match matchDefAt (cs.drop i) with
        | some (nm, len) => nm :: defScan cs fuel (i + len)
        | none => defScan cs fuel (i + 1)
      else []

/-- Python `content.find(needle, start)` (just the index, `none` for -1). -/
def findSubFrom (needle cs : List Char) (start : Nat) : Option Nat :=
  ((List.range (cs.length + 1)).filter
    (fun i => decide (start ≤ i) && List.isPrefixOf needle (cs.drop i))).head?

/-- `TestDiscovery._manual_analyze_fallback` on the raw text: for every match
of the class pattern, the method pattern is searched between the end of the
class match and the next occurrence of `"class "` (or the end of the file),
and each captured method name is recorded keyed `ClassName.method_name`.
Returns the keys of `self.tests`. -/
def regexDiscoverNames (content : String) : List String :=
  let cs := content.toList
  let classes := classScan cs (cs.length + 1) 0
  classes.foldl
    (fun acc cw =>
      let region :=
        match findSubFrom "class ".toList cs cw.2 with
        | some j => (cs.drop cw.2).take (j - cw.2)
        | none => cs.drop cw.2
      (defScan region (region.length + 1) 0).foldl
        (fun a m => insertKey a (cw.1 ++ "." ++ m)) acc)
    []

/-- A representative well-formed test file: one `TestCase` class declared on
a single line, two plain test methods. -/
def fileGood : PyModule :=
  [.classDef "ShopeeApiTestCase" ["TestCase"]
    [.funcDef "test_auth", .funcDef "test_product"]]

/-- A well-formed test file whose only test method is an `async def`. -/
def fileAsync : PyModule :=
  [.classDef "ShopeeApiTestCase" ["TestCase"]
    [.asyncFuncDef "test_auth"]]

/-
Concrete fixtures used by the closed theorems below.
-/

/-- A discovered-test record with the given name, priority, estimated cost
and parallel-safety (remaining fields as produced by discovery). -/
def tRec (name : String) (p : TestPriority) (d : ℚ) (psafe : Bool) :
    TestMetadata :=
  { name := name, module := "test_shopee_api", priority := p,
    estimated_duration := d, parallel_safe := psafe }

/-- Sequential config, no fail-fast, no category filter. -/
def cfgSeq : ExecutionConfig :=
  { parallel := false, fail_fast := false, categories := ∅ }

/-- Sequential config with fail-fast. -/
def cfgSeqFF : ExecutionConfig :=
  { parallel := false, fail_fast := true, categories := ∅ }

/-- Parallel config with fail-fast. -/
def cfgParFF : ExecutionConfig :=
  { parallel := true, fail_fast := true, categories := ∅ }

/-- Every test passes. -/
def execAllPass : TestMetadata → ExecOutcome := fun _ => .completes [] []

/-- The test named `t1` fails its assertion; every other test passes. -/
def execFailT1 : TestMetadata → ExecOutcome := fun t =>
  if t.name = "t1" then .completes ["AssertionError: boom"] [] else
    .completes [] []

/-- The test named `tA` fails its assertion; every other test passes. -/
def execFailTA : TestMetadata → ExecOutcome := fun t =>
  if t.name = "tA" then .completes ["AssertionError: boom"] [] else
    .completes [] []

/-- Every test raises during import/setup. -/
def execRaise : TestMetadata → ExecOutcome :=
  fun _ => .raises "No module named shopee_api"

/-- Scenario records of the spec: (t1, Critical, 0.1 s), (t2, Medium, 5.0 s),
(t3, Low, 1.0 s). -/
def tS1 : TestMetadata := tRec "t1" .critical (1 / 10) true
def tS2 : TestMetadata := tRec "t2" .medium 5 true
def tS3 : TestMetadata := tRec "t3" .low 1 true

/-- A parallel-safe test. -/
def tA : TestMetadata := tRec "tA" .medium 1 true

/-- A non-parallel-safe test. -/
def tB : TestMetadata := tRec "tB" .medium 1 false

/-- A lone test record. -/
def tE : TestMetadata := tRec "tE" .medium 1 true

/-
Helper lemmas on the execution engine and the processing loops.
-/

lemma execute_status_cases (t : TestMetadata) (b : ExecOutcome) :
    (execute_single_test t b).status = "passed"
      ∨ (execute_single_test t b).status = "failed"
      ∨ (execute_single_test t b).status = "error" := by
  cases b with
  | raises msg => exact Or.inr (Or.inr rfl)
  | completes fs es =>
      simp only [execute_single_test]
      split_ifs with h1 h2
      · exact Or.inl rfl
      · exact Or.inr (Or.inr rfl)
      · exact Or.inr (Or.inl rfl)

lemma execute_test_id (t : TestMetadata) (b : ExecOutcome) :
    (execute_single_test t b).test_id = t.name := by
  cases b with
  | raises msg => rfl
  | completes fs es =>
      simp only [execute_single_test]
      split_ifs <;> rfl

lemma execute_status_ne_skipped (t : TestMetadata) (b : ExecOutcome) :
    (execute_single_test t b).status ≠ "skipped" := by
  rcases execute_status_cases t b with h | h | h <;> rw [h] <;> decide

lemma update_summary_total (r : TestResult) (s : ExecutionSummary) :
    (update_summary r s).total = s.total := by
  unfold update_summary; split_ifs <;> rfl

lemma update_summary_results (r : TestResult) (s : ExecutionSummary) :
    (update_summary r s).results = s.results := by
  unfold update_summary; split_ifs <;> rfl

lemma update_summary_skipped (r : TestResult) (s : ExecutionSummary)
    (h : r.status ≠ "skipped") : (update_summary r s).skipped = s.skipped := by
  unfold update_summary
  split_ifs <;> rfl

lemma countersSum_update (r : TestResult) (s : ExecutionSummary)
    (h : r.status = "passed" ∨ r.status = "failed" ∨ r.status = "error") :
    countersSum (update_summary r s) = countersSum s + 1 := by
  unfold update_summary countersSum
  rcases h with h | h | h <;> rw [h] <;> simp <;> ring

lemma execLoop_total (ff : Bool) (exec : TestMetadata → ExecOutcome) :
    ∀ (l : List TestMetadata) (s : ExecutionSummary),
      (execLoop ff exec l s).total = s.total := by
  intro l
  induction l with
  | nil => intro s; rfl
  | cons t rest ih =>
      intro s
      simp only [execLoop]
      split_ifs with h
      · exact update_summary_total _ _
      · rw [ih, update_summary_total]

lemma execLoop_skipped (ff : Bool) (exec : TestMetadata → ExecOutcome) :
    ∀ (l : List TestMetadata) (s : ExecutionSummary),
      (execLoop ff exec l s).skipped = s.skipped := by
  intro l
  induction l with
  | nil => intro s; rfl
  | cons t rest ih =>
      intro s
      simp only [execLoop]
      split_ifs with h
      · exact update_summary_skipped _ _ (execute_status_ne_skipped t (exec t))
      · rw [ih, update_summary_skipped _ _ (execute_status_ne_skipped t (exec t))]

lemma countersSum_mk_results (s : ExecutionSummary) (rs : List TestResult) :
    countersSum { s with results := rs } = countersSum s := rfl

lemma execLoop_false_cons (exec : TestMetadata → ExecOutcome)
    (t : TestMetadata) (rest : List TestMetadata) (s : ExecutionSummary) :
    execLoop false exec (t :: rest) s
      = execLoop false exec rest
          (update_summary (execute_single_test t (exec t))
            { s with results := s.results ++ [execute_single_test t (exec t)] }) := by
  simp only [execLoop]
  rw [if_neg]
  rintro ⟨h, -⟩
  exact Bool.false_ne_true h

lemma execLoop_sum_le (ff : Bool) (exec : TestMetadata → ExecOutcome) :
    ∀ (l : List TestMetadata) (s : ExecutionSummary),
      countersSum (execLoop ff exec l s) ≤ countersSum s + l.length := by
  intro l
  induction l with
  | nil => intro s; simp [execLoop]
  | cons t rest ih =>
      intro s
      simp only [execLoop]
      split_ifs with h
      · rw [countersSum_update _ _ (execute_status_cases t (exec t)),
          countersSum_mk_results]
        simp only [List.length_cons]
        omega
      · calc countersSum (execLoop ff exec rest
              (update_summary (execute_single_test t (exec t))
                { s with results := s.results ++ [execute_single_test t (exec t)] }))
            ≤ countersSum (update_summary (execute_single_test t (exec t))
                { s with results := s.results ++ [execute_single_test t (exec t)] })
              + rest.length := ih _
          _ = countersSum s + 1 + rest.length := by
              rw [countersSum_update _ _ (execute_status_cases t (exec t)),
                countersSum_mk_results]
          _ ≤ countersSum s + (t :: rest).length := by
              simp only [List.length_cons]; omega

lemma execLoop_sum_eq (exec : TestMetadata → ExecOutcome) :
    ∀ (l : List TestMetadata) (s : ExecutionSummary),
      countersSum (execLoop false exec l s) = countersSum s + l.length := by
  intro l
  induction l with
  | nil => intro s; simp [execLoop]
  | cons t rest ih =>
      intro s
      rw [execLoop_false_cons, ih,
        countersSum_update _ _ (execute_status_cases t (exec t)),
        countersSum_mk_results]
      simp only [List.length_cons]
      omega

lemma execLoop_results (exec : TestMetadata → ExecOutcome) :
    ∀ (l : List TestMetadata) (s : ExecutionSummary),
      (execLoop false exec l s).results
        = s.results ++ l.map (fun t => execute_single_test t (exec t)) := by
  intro l
  induction l with
  | nil => intro s; simp [execLoop]
  | cons t rest ih =>
      intro s
      rw [execLoop_false_cons, ih, update_summary_results]
      simp

lemma execLoop_results_mem (ff : Bool) (exec : TestMetadata → ExecOutcome) :
    ∀ (l : List TestMetadata) (s : ExecutionSummary) (r : TestResult),
      r ∈ (execLoop ff exec l s).results →
        r ∈ s.results ∨ ∃ t ∈ l, r = execute_single_test t (exec t) := by
  intro l
  induction l with
  | nil => intro s r hr; exact Or.inl hr
  | cons t rest ih =>
      intro s r hr
      simp only [execLoop] at hr
      split_ifs at hr with h
      · rw [update_summary_results] at hr
        simp only [List.mem_append, List.mem_singleton] at hr
        rcases hr with hr | hr
        · exact Or.inl hr
        · exact Or.inr ⟨t, List.mem_cons_self t rest, hr⟩
      · rcases ih _ _ hr with hr' | ⟨t', ht', rfl⟩
        · rw [update_summary_results] at hr'
          simp only [List.mem_append, List.mem_singleton] at hr'
          rcases hr' with hr' | hr'
          · exact Or.inl hr'
          · exact Or.inr ⟨t, List.mem_cons_self t rest, hr'⟩
        · exact Or.inr ⟨t', List.mem_cons_of_mem t ht', rfl⟩

lemma length_filter_psafe (l : List TestMetadata) :
    (l.filter (fun t => t.parallel_safe)).length
      + (l.filter (fun t => !t.parallel_safe)).length = l.length := by
  induction l with
  | nil => rfl
  | cons t rest ih =>
      cases h : t.parallel_safe
      · simp [List.filter_cons, h]
        omega
      · simp [List.filter_cons, h]
        omega

lemma filter_tests_of_empty (cfg : ExecutionConfig)
    (hc : cfg.categories = ∅) (tests : List TestMetadata) :
    filter_tests cfg tests = tests := by
  simp [filter_tests, hc]

lemma countersSum_init (n : Nat) :
    countersSum { total := n } = 0 := rfl

lemma run_parallel_total (cfg : ExecutionConfig)
    (exec : TestMetadata → ExecOutcome)
    (reorder : List TestMetadata → List TestMetadata)
    (l : List TestMetadata) (s : ExecutionSummary) :
    (run_parallel cfg exec reorder l s).total = s.total := by
  simp only [run_parallel]
  rw [execLoop_total, execLoop_total]

lemma run_parallel_sum_le (cfg : ExecutionConfig)
    (exec : TestMetadata → ExecOutcome)
    (reorder : List TestMetadata → List TestMetadata)
    (l : List TestMetadata) (s : ExecutionSummary)
    (hperm : ∀ l', List.Perm (reorder l') l') :
    countersSum (run_parallel cfg exec reorder l s) ≤ countersSum s + l.length := by
  simp only [run_parallel]
  refine le_trans (execLoop_sum_le _ _ _ _) ?_
  have h1 := execLoop_sum_le cfg.fail_fast exec
    (reorder (l.filter (fun t => t.parallel_safe))) s
  have h2 := (hperm (l.filter (fun t => t.parallel_safe))).length_eq
  have h3 := length_filter_psafe l
  omega

lemma run_parallel_sum_eq (cfg : ExecutionConfig)
    (exec : TestMetadata → ExecOutcome)
    (reorder : List TestMetadata → List TestMetadata)
    (l : List TestMetadata) (s : ExecutionSummary)
    (hff : cfg.fail_fast = false)
    (hperm : ∀ l', List.Perm (reorder l') l') :
    countersSum (run_parallel cfg exec reorder l s) = countersSum s + l.length := by
  simp only [run_parallel, hff]
  rw [execLoop_sum_eq, execLoop_sum_eq]
  have h2 := (hperm (l.filter (fun t => t.parallel_safe))).length_eq
  have h3 := length_filter_psafe l
  omega

/-- Claim C1 (amended): after every orchestrator run, the summary satisfies
`passed + failed + errors + skipped ≤ total`, with equality whenever
`fail_fast` is false (for any completion order of the parallel pool).  The
claim's unconditional equality fails under a fail-fast early stop, because
`run` sets `total` to the full dispatch-list length before executing
(counterexample `claim1_counterexample`). -/
theorem claim1_counters_vs_total (cfg : ExecutionConfig)
    (exec : TestMetadata → ExecOutcome)
    (reorder : List TestMetadata → List TestMetadata)
    (tests : List TestMetadata)
    (hperm : ∀ l, List.Perm (reorder l) l) :
    countersSum (orchestrator_run cfg exec reorder tests)
        ≤ (orchestrator_run cfg exec reorder tests).total
      ∧ (cfg.fail_fast = false →
          countersSum (orchestrator_run cfg exec reorder tests)
            = (orchestrator_run cfg exec reorder tests).total) := by
  simp only [orchestrator_run]
  split_ifs with hbr
  · constructor
    · rw [run_parallel_total]
      have := run_parallel_sum_le cfg exec reorder
        (List.insertionSort keyLe (filter_tests cfg tests))
        { total := (List.insertionSort keyLe (filter_tests cfg tests)).length }
        hperm
      rw [countersSum_init] at this
      simpa using this
    · intro hff
      rw [run_parallel_total]
      have := run_parallel_sum_eq cfg exec reorder
        (List.insertionSort keyLe (filter_tests cfg tests))
        { total := (List.insertionSort keyLe (filter_tests cfg tests)).length }
        hff hperm
      rw [countersSum_init] at this
      simpa using this
  · constructor
    · simp only [run_sequential]
      rw [execLoop_total]
      have := execLoop_sum_le cfg.fail_fast exec
        (List.insertionSort keyLe (filter_tests cfg tests))
        { total := (List.insertionSort keyLe (filter_tests cfg tests)).length }
      rw [countersSum_init] at this
      simpa using this
    · intro hff
      simp only [run_sequential, hff]
      rw [execLoop_total]
      have := execLoop_sum_eq exec
        (List.insertionSort keyLe (filter_tests cfg tests))
        { total := (List.insertionSort keyLe (filter_tests cfg tests)).length }
      rw [countersSum_init] at this
      simpa using this

/-- Witness for C1 at a concrete input (hypotheses discharged). -/
theorem claim1_counters_vs_total_witness :
    countersSum (orchestrator_run cfgSeq execAllPass id [tE])
        ≤ (orchestrator_run cfgSeq execAllPass id [tE]).total
      ∧ (cfgSeq.fail_fast = false →
          countersSum (orchestrator_run cfgSeq execAllPass id [tE])
            = (orchestrator_run cfgSeq execAllPass id [tE]).total) :=
  claim1_counters_vs_total cfgSeq execAllPass id [tE]
    (fun l => List.Perm.refl l)

/-- Counterexample for C1 as stated: with `fail_fast=true`, two sequential
tests of which the first fails, the run stops early and
`passed+failed+errors+skipped = 1 ≠ 2 = total`. -/
theorem claim1_counterexample :
    countersSum (orchestrator_run cfgSeqFF execFailT1
        id [tRec "t1" .medium 1 true, tRec "t2" .medium 1 true])
      ≠ (orchestrator_run cfgSeqFF execFailT1
        id [tRec "t1" .medium 1 true, tRec "t2" .medium 1 true]).total := by
  decide

/-- Claim C2 (amended): with `parallel=false` and `fail_fast=false` (and no
category filter) the tests execute exactly in the order of the stable sort by
ascending `(priority.value, estimated_duration)`; for the spec's three
records (t1, Critical, 0.1 s), (t2, Medium, 5.0 s), (t3, Low, 1.0 s) this
order is `[t1, t2, t3]` — not `[t1, t3, t2]` as claimed, since
`Low.value = 3 > Medium.value = 2` (counterexample `claim2_counterexample`). -/
theorem claim2_sequential_order (cfg : ExecutionConfig)
    (exec : TestMetadata → ExecOutcome)
    (reorder : List TestMetadata → List TestMetadata)
    (tests : List TestMetadata)
    (hp : cfg.parallel = false) (hf : cfg.fail_fast = false)
    (hc : cfg.categories = ∅) :
    (orchestrator_run cfg exec reorder tests).results.map
        (fun r => r.test_id)
      = (List.insertionSort keyLe tests).map (fun t => t.name)
    ∧ List.Sorted keyLe (List.insertionSort keyLe tests)
    ∧ (orchestrator_run cfgSeq execAllPass id [tS1, tS2, tS3]).results.map
        (fun r => r.test_id) = ["t1", "t2", "t3"] := by
  refine ⟨?_, List.sorted_insertionSort keyLe tests, by decide⟩
  simp only [orchestrator_run, hp]
  rw [if_neg (by rintro ⟨h, -⟩; exact Bool.false_ne_true h)]
  simp only [run_sequential, hf]
  rw [execLoop_results, filter_tests_of_empty cfg hc]
  simp only [List.nil_append, List.map_map]
  refine List.map_congr_left ?_
  intro t ht
  exact execute_test_id t (exec t)

/-- Witness for C2 at the spec's scenario records. -/
theorem claim2_sequential_order_witness :
    (orchestrator_run cfgSeq execAllPass id [tS1, tS2, tS3]).results.map
        (fun r => r.test_id)
      = (List.insertionSort keyLe [tS1, tS2, tS3]).map (fun t => t.name) :=
  (claim2_sequential_order cfgSeq execAllPass id [tS1, tS2, tS3]
    rfl rfl rfl).1

/-- Counterexample for C2 as stated: on the spec's scenario records the
sequential execution order is `[t1, t2, t3]`, not `[t1, t3, t2]`. -/
theorem claim2_counterexample :
    (orchestrator_run cfgSeq execAllPass id [tS1, tS2, tS3]).results.map
        (fun r => r.test_id) = ["t1", "t2", "t3"]
      ∧ (orchestrator_run cfgSeq execAllPass id [tS1, tS2, tS3]).results.map
        (fun r => r.test_id) ≠ ["t1", "t3", "t2"] := by
  decide

/-- Claim C3 (code bug evidence): with `parallel=true`, `fail_fast=true`, a
parallel-safe test `tA` that fails and a non-parallel-safe test `tB`, the run
still executes `tB` in the sequential tail after `tA`'s failing outcome —
because `_stop_event` is never set, the tail loop's only guard never fires.
The claim (and the spec) say the sequential tail is never started. -/
theorem claim3_tail_runs_after_failure :
    (orchestrator_run cfgParFF execFailTA id [tA, tB]).results.map
        (fun r => r.test_id) = ["tA", "tB"]
      ∧ (orchestrator_run cfgParFF execFailTA id [tA, tB]).results.map
        (fun r => r.status) = ["failed", "passed"] := by
  decide

/-- Claim C4: the execution engine is a total function on every behaviour of
the test body — its status is always one of passed/failed/error; an escaped
exception (import failure, missing class/method, arbitrary fault) yields
status `"error"` carrying the exception text; a run whose unittest result
holds errors yields `"error"` with the first error text; a run with assertion
failures only yields `"failed"` with the first failure text. -/
theorem claim4_execute_never_raises (t : TestMetadata) (b : ExecOutcome) :
    ((execute_single_test t b).status = "passed"
      ∨ (execute_single_test t b).status = "failed"
      ∨ (execute_single_test t b).status = "error")
    ∧ (∀ msg, b = .raises msg →
        (execute_single_test t b).status = "error"
          ∧ (execute_single_test t b).error = msg)
    ∧ (∀ fs es, b = .completes fs es → es ≠ [] →
        (execute_single_test t b).status = "error"
          ∧ (execute_single_test t b).error = es.headD "")
    ∧ (∀ fs es, b = .completes fs es → es = [] → fs ≠ [] →
        (execute_single_test t b).status = "failed"
          ∧ (execute_single_test t b).error = fs.headD "") := by
  refine ⟨execute_status_cases t b, ?_, ?_, ?_⟩
  · rintro msg rfl
    exact ⟨rfl, rfl⟩
  · rintro fs es rfl hes
    simp only [execute_single_test]
    rw [if_neg (by rintro ⟨-, h⟩; exact hes h), if_pos hes]
    exact ⟨rfl, rfl⟩
  · rintro fs es rfl hes hfs
    simp only [execute_single_test]
    rw [if_neg (by rintro ⟨h, -⟩; exact hfs h), if_neg (by simp [hes])]
    exact ⟨rfl, rfl⟩

/-- Witness for C4: a module-import failure is converted into an error
outcome with the exception text. -/
theorem claim4_execute_never_raises_witness :
    (execute_single_test tE (.raises "No module named shopee_api")).status
        = "error"
      ∧ (execute_single_test tE
          (.raises "No module named shopee_api")).error
        = "No module named shopee_api" :=
  (claim4_execute_never_raises tE (.raises "No module named shopee_api")).2.1
    "No module named shopee_api" rfl

/-- Claim C5 (code bug evidence): a run whose single test errors gives a
summary with `failed = 0` and `errors = 1`; the non-CI path of `main()`
computes `success = summary.failed == 0` only, so the process exits 0
(success) although `errors ≠ 0` — the CI path exits 1 on the same summary.
The claim (and the spec) require success iff `failed == 0 and errors == 0`
on every path. -/
theorem claim5_nonci_exit_ignores_errors :
    (orchestrator_run cfgSeq execRaise id [tE]).failed = 0
      ∧ (orchestrator_run cfgSeq execRaise id [tE]).errors = 1
      ∧ main_exit_code false (orchestrator_run cfgSeq execRaise id [tE]) = 0
      ∧ main_exit_code true (orchestrator_run cfgSeq execRaise id [tE]) = 1 := by
  decide

lemma mkMetrics_test_id (rows : List ResultRow) (id : String) :
    (mkMetrics rows id).test_id = id := rfl

/-- Claim C6: for every threshold and window, `get_flaky_tests` returns
exactly the tests (appearing in the window) whose flakiness score — failures
over total runs in the window — is strictly greater than the threshold (so a
test whose score equals the threshold is excluded), and the returned list is
ordered by failure count descending. -/
theorem claim6_flaky_tests (threshold cutoff : ℚ) (rows : List ResultRow) :
    (∀ id : String,
      (∃ m, m ∈ get_flaky_tests threshold cutoff rows ∧ m.test_id = id)
        ↔ id ∈ (rowsInWindow cutoff rows).map (fun r => r.test_id)
            ∧ threshold < flakinessScore (rowsInWindow cutoff rows) id)
    ∧ List.Sorted failuresDesc (get_flaky_tests threshold cutoff rows) := by
  constructor
  · intro id
    constructor
    · rintro ⟨m, hm, hid⟩
      simp only [get_flaky_tests, List.mem_insertionSort] at hm
      rcases List.mem_map.mp hm with ⟨id', hid', rfl⟩
      rcases List.mem_filter.mp hid' with ⟨hin, hsc⟩
      have hii : id' = id := hid
      subst hii
      simp only [groupIds] at hin
      exact ⟨List.mem_dedup.mp hin, of_decide_eq_true hsc⟩
    · rintro ⟨hin, hsc⟩
      refine ⟨mkMetrics (rowsInWindow cutoff rows) id, ?_, rfl⟩
      simp only [get_flaky_tests, List.mem_insertionSort]
      refine List.mem_map.mpr ⟨id, List.mem_filter.mpr ⟨?_, ?_⟩, rfl⟩
      · simp only [groupIds]
        exact List.mem_dedup.mpr hin
      · exact decide_eq_true hsc
  · exact List.sorted_insertionSort failuresDesc _

/-- Claim C7 (amended): the category assigned by discovery
(`_detect_category_from_name`) is decided by a two-rule first-match check:
name contains "mock" or the file content contains "@patch" → Mock; else name
contains "api" or "request" → ApiCall; else Unit.  Discovery never assigns
Integration, Property or Flaky, and never consults the docstring — the
five-rule order of the claim belongs to the unused `_detect_category` helper
(counterexample `claim7_counterexample`). -/
theorem claim7_category_rule (name content : String) :
    ((containsSubstr "mock" (strToLower name)
        || containsSubstr "@patch" content) = true →
      detect_category_from_name name content = .mock)
    ∧ ((containsSubstr "mock" (strToLower name)
        || containsSubstr "@patch" content) = false →
      (containsSubstr "api" (strToLower name)
        || containsSubstr "request" (strToLower name)) = true →
      detect_category_from_name name content = .api)
    ∧ ((containsSubstr "mock" (strToLower name)
        || containsSubstr "@patch" content) = false →
      (containsSubstr "api" (strToLower name)
        || containsSubstr "request" (strToLower name)) = false →
      detect_category_from_name name content = .unit)
    ∧ detect_category_from_name name content ≠ .integration
    ∧ detect_category_from_name name content ≠ .property
    ∧ detect_category_from_name name content ≠ .flaky := by
  cases h1 : (containsSubstr "mock" (strToLower name)
      || containsSubstr "@patch" content) <;>
    cases h2 : (containsSubstr "api" (strToLower name)
      || containsSubstr "request" (strToLower name)) <;>
    simp [detect_category_from_name, h1, h2]

/-- Witness for C7: a name containing "request" is classified ApiCall. -/
theorem claim7_category_rule_witness :
    detect_category_from_name "test_request_products" "" = .api :=
  (claim7_category_rule "test_request_products" "").2.1 (by decide) (by decide)

/-- Counterexample for C7 as stated: a test method named
`test_integration_flow` is classified Unit by discovery, not Integration —
`_detect_category_from_name` has no integration (or property/doc) rule. -/
theorem claim7_counterexample :
    detect_category_from_name "test_integration_flow" "" = .unit
      ∧ TestCategory.unit ≠ TestCategory.integration := by
  constructor
  · decide
  · decide

/-- Claim C8 (amended): the structural (AST) path and the regex-fallback
path agree on well-formed input only under additional syntactic restrictions
— single-line class headers and plain synchronous top-level method
definitions, as in `fileGood`, where both yield the same qualified-name set;
they do not agree on all well-formed input (counterexample
`claim8_counterexample`: an `async def` test method is invisible to the AST
path's `ast.FunctionDef` check but matched by the fallback's
`def\s+(test_\w+)\s*\(` pattern). -/
theorem claim8_paths_agree_on_plain_file :
    astDiscoverNames fileGood = regexDiscoverNames (renderModule fileGood)
      ∧ astDiscoverNames fileGood
        = ["ShopeeApiTestCase.test_auth", "ShopeeApiTestCase.test_product"] := by
  decide

/-- Counterexample for C8 as stated: on the well-formed file `fileAsync`
(one `TestCase` class whose only test method is `async`), the AST path
discovers 0 tests and the regex fallback discovers 1, so the two strategies
disagree on a well-formed input. -/
theorem claim8_counterexample :
    astDiscoverNames fileAsync = []
      ∧ regexDiscoverNames (renderModule fileAsync)
        = ["ShopeeApiTestCase.test_auth"]
      ∧ astDiscoverNames fileAsync
        ≠ regexDiscoverNames (renderModule fileAsync) := by
  decide

/-- Claim C9 (amended): `success_rate` is 0 when `total = 0` and
`passed/total*100` otherwise; it lies in `[0, 100]` whenever
`passed ≤ total` (as in every orchestrator-produced summary), but not for
all field assignments (counterexample `claim9_counterexample`). -/
theorem claim9_success_rate (s : ExecutionSummary) :
    (s.total = 0 → success_rate s = 0)
    ∧ (s.total ≠ 0 →
        success_rate s = ((s.passed : ℚ) / (s.total : ℚ)) * 100)
    ∧ (s.passed ≤ s.total →
        0 ≤ success_rate s ∧ success_rate s ≤ 100) := by
  refine ⟨?_, ?_, ?_⟩
  · intro h
    simp [success_rate, h]
  · intro h
    simp [success_rate, h]
  · intro hle
    by_cases h : s.total = 0
    · simp [success_rate, h]
    · have ht : (0 : ℚ) < (s.total : ℚ) := by
        exact_mod_cast Nat.pos_of_ne_zero h
      rw [success_rate, if_neg h]
      constructor
      · positivity
      · have hdiv : (s.passed : ℚ) / (s.total : ℚ) ≤ 1 := by
          rw [div_le_one ht]
          exact_mod_cast hle
        nlinarith

/-- Witness for C9 at a concrete summary. -/
theorem claim9_success_rate_witness :
    0 ≤ success_rate { total := 2, passed := 1 }
      ∧ success_rate { total := 2, passed := 1 } ≤ 100 :=
  (claim9_success_rate { total := 2, passed := 1 }).2.2 (by decide)

/-- Counterexample for C9 as stated: the summary with `total = 1` and
`passed = 2` (a legal field assignment of the dataclass) has
`success_rate = 200 ∉ [0, 100]`. -/
theorem claim9_counterexample :
    success_rate { total := 1, passed := 2 } = 200
      ∧ ¬ success_rate { total := 1, passed := 2 } ≤ 100 := by
  constructor
  · norm_num [success_rate]
  · norm_num [success_rate]

/-- Claim C10: the execution engine only produces statuses passed, failed or
error — never skipped — so `summary.skipped` is 0 after every run, and every
recorded outcome belongs to a test that survived the category filter (tests
removed by the filter, or left undispatched by fail-fast, produce no outcome
at all). -/
theorem claim10_never_skipped (cfg : ExecutionConfig)
    (exec : TestMetadata → ExecOutcome)
    (reorder : List TestMetadata → List TestMetadata)
    (tests : List TestMetadata)
    (hperm : ∀ l, List.Perm (reorder l) l) :
    (orchestrator_run cfg exec reorder tests).skipped = 0
    ∧ (∀ r ∈ (orchestrator_run cfg exec reorder tests).results,
        r.status = "passed" ∨ r.status = "failed" ∨ r.status = "error")
    ∧ (∀ r ∈ (orchestrator_run cfg exec reorder tests).results,
        r.test_id ∈ (List.insertionSort keyLe (filter_tests cfg tests)).map
          (fun t => t.name)) := by
  have hmem : ∀ r ∈ (orchestrator_run cfg exec reorder tests).results,
      ∃ t ∈ List.insertionSort keyLe (filter_tests cfg tests),
        r = execute_single_test t (exec t) := by
    intro r hr
    simp only [orchestrator_run] at hr
    split_ifs at hr with hbr
    · simp only [run_parallel] at hr
      rcases execLoop_results_mem _ _ _ _ _ hr with hr' | ⟨t, ht, rfl⟩
      · rcases execLoop_results_mem _ _ _ _ _ hr' with hr'' | ⟨t, ht, rfl⟩
        · simp at hr''
        · refine ⟨t, ?_, rfl⟩
          have := (hperm _).mem_iff.mp ht
          exact List.mem_of_mem_filter this
      · exact ⟨t, List.mem_of_mem_filter ht, rfl⟩
    · simp only [run_sequential] at hr
      rcases execLoop_results_mem _ _ _ _ _ hr with hr' | ⟨t, ht, rfl⟩
      · simp at hr'
      · exact ⟨t, ht, rfl⟩
  refine ⟨?_, ?_, ?_⟩
  · simp only [orchestrator_run]
    split_ifs with hbr
    · simp only [run_parallel]
      rw [execLoop_skipped, execLoop_skipped]
    · simp only [run_sequential]
      rw [execLoop_skipped]
  · intro r hr
    rcases hmem r hr with ⟨t, -, rfl⟩
    exact execute_status_cases t (exec t)
  · intro r hr
    rcases hmem r hr with ⟨t, ht, rfl⟩
    rw [execute_test_id]
    exact List.mem_map.mpr ⟨t, ht, rfl⟩

/-- Witness for C10 at a concrete run. -/
theorem claim10_never_skipped_witness :
    (orchestrator_run cfgSeq execAllPass id [tE]).skipped = 0 :=
  (claim10_never_skipped cfgSeq execAllPass id [tE]
    (fun l => List.Perm.refl l)).1
